import Mathlib

/-!
Verification of the database access layer of PyForceSim
(`src/pyforcesim/simulation/databases.py`).

The Python module is shallowly embedded: pure helpers become Lean
functions, the `Database` class becomes a family of functions over an
explicit `DBState`, fallible code returns `Except`, and every public
operation additionally reports the trace of connection/statement events
it performed, so that lifecycle properties can be stated.

Modelling notes:
* Strings are treated as sequences of characters; the regex character
  class `\w` of `DB_INJECTION_PATTERN` is modelled on its ASCII fragment
  `[A-Za-z0-9_]` (Python's `re` additionally counts non-ASCII word
  characters; all theorems about the sanitizer therefore restrict to
  ASCII strings, on which the model and Python agree).
* Python raises `ValueError` at three distinct sites (sanitizer,
  type-vocabulary check, arity check); the embedding distinguishes the
  sites by constructor while keeping the exact message of each site.
* The few constants imported from `pyforcesim.types` that the repository
  does not ship are modelled from the specification and marked as such.
-/

set_option maxRecDepth 8000

namespace PyForceSim

/-! ### Character classes (ASCII model of the classes in `DB_INJECTION_PATTERN`) -/

/-- ASCII decimal digit, regex class `[0-9]`. -/
def isDigitChar (c : Char) : Bool := 48 ≤ c.toNat && c.toNat ≤ 57

/-- ASCII letter, regex class `[A-Za-z]`. -/
def isAsciiLetter (c : Char) : Bool :=
  (65 ≤ c.toNat && c.toNat ≤ 90) || (97 ≤ c.toNat && c.toNat ≤ 122)

/-- Regex class `[_0-9]` (underscore is code point 95). -/
def isDigitUnderscore (c : Char) : Bool := isDigitChar c || c.toNat == 95

/-- Word character `\w`, ASCII fragment `[A-Za-z0-9_]`. -/
def isWordChar (c : Char) : Bool := isAsciiLetter c || isDigitChar c || c.toNat == 95

/-- ASCII character (code point below 128). -/
def isAsciiChar (c : Char) : Bool := c.toNat < 128

/-- `containsSub needle l` holds iff `needle` occurs as a contiguous
substring of `l`, the semantics of unanchored regex alternatives such as
`(true|false|...)` under `re.search`. -/
def containsSub (needle : List Char) : List Char → Bool
  | [] => needle.isEmpty
  | c :: cs => needle.isPrefixOf (c :: cs) || containsSub needle cs

/-! ### The sanitizer (`databases.py`, lines 24-26 and 114-122) -/

/-- `DB_INJECTION_PATTERN` of `databases.py` (kept verbatim for reference;
its `re.search` semantics is the function `matchesInjectionPattern`). -/
def DB_INJECTION_PATTERN : String :=
  "(^[_0-9]+)|[^\\w ]|(true|false|select|where|drop|delete|create)"

/-- The keyword alternatives of the third branch of the pattern. -/
def DB_BANNED_KEYWORDS : List String :=
  ["true", "false", "select", "where", "drop", "delete", "create"]

/-- The string starts with a character of `[_0-9]`: exactly when
`re.search` finds a match of the anchored branch `^[_0-9]+`. -/
def startsWithDigitOrUnderscore (s : String) : Bool :=
  match s.data with
  | [] => false
  | c :: _ => isDigitUnderscore c

/-- Some character lies outside word characters and space: exactly when
`re.search` finds a match of the branch `[^\w ]` (space is code point 32). -/
def hasNonWordSpaceChar (s : String) : Bool :=
  s.data.any (fun c => !(isWordChar c || c.toNat == 32))

/-- The string contains a banned keyword, case-insensitively: exactly when
`re.search` (compiled with `re.IGNORECASE`) finds a match of the branch
`(true|false|select|where|drop|delete|create)`. -/
def containsBannedCI (s : String) : Bool :=
  DB_BANNED_KEYWORDS.any (fun k => containsSub k.data (s.data.map Char.toLower))

/-- `re.search(DB_INJECTION_PATTERN, s, re.IGNORECASE)` finds a match:
the union of the three branches (`search` scans every position, and the
anchored first branch can only match at position 0). -/
def matchesInjectionPattern (s : String) : Bool :=
  startsWithDigitOrUnderscore s || hasNonWordSpaceChar s || containsBannedCI s

/-- Error taxonomy of the module.  Python raises `ValueError` for the
first three (the constructors record the raise site and its exact
message), `CommonSQLError` for `schemaNotFound`, arbitrary engine errors
for `storeError`, and `IndexError` for `indexError`. -/
inductive DBError where
  | validation (msg : String)
  | schemaNotFound (msg : String)
  | arityMismatch (msg : String)
  | storeError (msg : String)
  | indexError
deriving DecidableEq, Repr

deriving instance DecidableEq for Except

namespace Database

/-- `Database._clean_query_injection` (lines 114-122): raise iff the
compiled pattern finds a match, otherwise return the value unchanged. -/
def _clean_query_injection (value : String) : Except DBError String :=
  if matchesInjectionPattern value then
    .error (.validation ("Unallowed characters in value " ++ value ++ "."))
  else
    .ok value

end Database

/-! ### Predicates of the specification about the sanitizer (claim side) -/

/-- "is purely digits/underscores": nonempty and every character in `[_0-9]`. -/
def purelyDigitsUnderscores (s : String) : Bool :=
  !s.data.isEmpty && s.data.all isDigitUnderscore

/-- The specification's acceptance grammar `^[A-Za-z][A-Za-z0-9_]*$`. -/
def matchesIdentGrammar (s : String) : Bool :=
  match s.data with
  | [] => false
  | c :: cs => isAsciiLetter c && cs.all isWordChar

/-- Every character of the string is ASCII (the domain on which the
embedding of `\w` coincides with Python's). -/
def allAsciiString (s : String) : Bool := s.data.all isAsciiChar

/-! ### C1 -/

theorem isDigitUnderscore_of_purely {s : String} (hne : s.data ≠ [])
    (hall : s.data.all isDigitUnderscore = true) :
    startsWithDigitOrUnderscore s = true := by
  unfold startsWithDigitOrUnderscore
  cases h : s.data with
  | nil => exact absurd h hne
  | cons c cs =>
    rw [h] at hall
    simp only [List.all_cons, Bool.and_eq_true] at hall
    exact hall.1

theorem not_digitUnderscore_of_letter {c : Char} (h : isAsciiLetter c = true) :
    isDigitUnderscore c = false := by
  unfold isAsciiLetter at h
  simp only [Bool.or_eq_true, Bool.and_eq_true, decide_eq_true_eq] at h
  unfold isDigitUnderscore isDigitChar
  simp only [Bool.or_eq_false_iff, Bool.and_eq_false_iff, decide_eq_false_iff_not, not_le,
    beq_eq_false_iff_ne, ne_eq]
  omega

/-- C1: the sanitizer rejects — with a `ValidationError` naming the string —
every ASCII string that contains a banned keyword case-insensitively, or is
purely digits/underscores, or contains a character outside word characters
and space; and it accepts, returning the string unchanged, every string that
matches `^[A-Za-z][A-Za-z0-9_]*$` and contains no banned keyword. -/
theorem clean_query_injection_spec :
    (∀ s : String, allAsciiString s = true →
      (containsBannedCI s = true ∨ purelyDigitsUnderscores s = true ∨
        hasNonWordSpaceChar s = true) →
      Database._clean_query_injection s =
        .error (.validation ("Unallowed characters in value " ++ s ++ "."))) ∧
    (∀ s : String, matchesIdentGrammar s = true → containsBannedCI s = false →
      Database._clean_query_injection s = .ok s) := by
  constructor
  · intro s _ h
    have hm : matchesInjectionPattern s = true := by
      unfold matchesInjectionPattern
      rcases h with h | h | h
      · simp [h]
      · unfold purelyDigitsUnderscores at h
        rw [Bool.and_eq_true] at h
        have hne : s.data ≠ [] := by
          intro hnil
          rw [hnil] at h
          exact absurd h.1 (by decide)
        have := isDigitUnderscore_of_purely hne h.2
        simp [this]
      · simp [h]
    unfold Database._clean_query_injection
    rw [hm]
    rfl
  · intro s hg hb
    have hm : matchesInjectionPattern s = false := by
      unfold matchesInjectionPattern
      unfold matchesIdentGrammar at hg
      cases hd : s.data with
      | nil => rw [hd] at hg; exact absurd hg (by decide)
      | cons c cs =>
        rw [hd] at hg
        simp only [Bool.and_eq_true] at hg
        have h1 : startsWithDigitOrUnderscore s = false := by
          unfold startsWithDigitOrUnderscore
          rw [hd]
          exact not_digitUnderscore_of_letter hg.1
        have h2 : hasNonWordSpaceChar s = false := by
          unfold hasNonWordSpaceChar
          rw [hd]
          simp only [List.any_cons, Bool.or_eq_false_iff, List.any_eq_false]
          constructor
          · have : isWordChar c = true := by
              unfold isWordChar; simp [hg.1]
            simp [this]
          · intro x hx
            have hw : isWordChar x = true := by
              have := List.all_eq_true.mp hg.2 x hx
              exact this
            simp [hw]
        rw [h1, h2, hb]
        rfl
    unfold Database._clean_query_injection
    rw [hm]
    rfl

/-- Witness for C1 at concrete inputs: `"12"` (purely digits) is rejected
with the exact message, and `"events"` is accepted unchanged. -/
theorem clean_query_injection_spec_witness :
    Database._clean_query_injection "12" =
      .error (.validation ("Unallowed characters in value " ++ "12" ++ ".")) ∧
    Database._clean_query_injection "events" = .ok "events" :=
  ⟨clean_query_injection_spec.1 "12" (by decide) (Or.inr (Or.inl (by decide))),
   clean_query_injection_spec.2 "events" (by decide) (by decide)⟩

/-! ### Decimal rendering and parsing

`adapt_date_iso` / `adapt_datetime_iso` produce the zero-padded decimal
fields of Python's `isoformat`, `adapt_timedelta` the unpadded `str(int)`
rendering, and the `convert_*` functions parse them back with `int`.
The renderers and parsers below model that stdlib behaviour on lists of
characters. -/

/-- The decimal digit character for `n % 10`-style arguments below 10. -/
def digitChar : Nat → Char
  | 0 => '0' | 1 => '1' | 2 => '2' | 3 => '3' | 4 => '4'
  | 5 => '5' | 6 => '6' | 7 => '7' | 8 => '8' | _ => '9'

/-- The decimal digits of `n`, most significant first (`str(n)` for a
nonnegative `int`). -/
def natDigits (n : Nat) : List Char :=
  if h : n < 10 then [digitChar n]
  else natDigits (n / 10) ++ [digitChar (n % 10)]
decreasing_by exact Nat.div_lt_self (by omega) (by omega)

/-- Value of a digit string under the usual left fold. -/
def valOfDigits (l : List Char) : Nat :=
  l.foldl (fun a c => a * 10 + (c.toNat - 48)) 0

/-- `int(s)` for a nonnegative decimal string: requires a nonempty
all-digit string (leading zeros allowed, as in Python). -/
def parseNatDigits (l : List Char) : Option Nat :=
  if !l.isEmpty && l.all isDigitChar then some (valOfDigits l) else none

/-- Left-pad with `'0'` to width `w` (`%0wd` formatting). -/
def padLeftZeros (w : Nat) (l : List Char) : List Char :=
  List.replicate (w - l.length) '0' ++ l

/-- `n` rendered zero-padded to width `w`. -/
def padDigits (w n : Nat) : List Char := padLeftZeros w (natDigits n)

/-- `str(i)` for an `int`: optional minus sign, then decimal digits. -/
def intChars (i : Int) : List Char :=
  if i < 0 then '-' :: natDigits i.natAbs else natDigits i.toNat

/-- `int(s)` for a possibly negative decimal string. -/
def parseIntChars (l : List Char) : Option Int :=
  match l with
  | [] => none
  | c :: rest =>
    if c = '-' then
      match parseNatDigits rest with
      | none => none
      | some n => some (-(n : Int))
    else
      match parseNatDigits (c :: rest) with
      | none => none
      | some n => some ((n : Int))

/-- `str.split(sep)` for a one-character separator. -/
def splitOnChar (sep : Char) : List Char → List (List Char)
  | [] => [[]]
  | c :: cs =>
    if c = sep then [] :: splitOnChar sep cs
    else
      match splitOnChar sep cs with
      | [] => [[c]]
      | t :: ts => (c :: t) :: ts

theorem toNat_digitChar {n : Nat} (h : n < 10) : (digitChar n).toNat = 48 + n := by
  interval_cases n <;> rfl

theorem isDigitChar_digitChar {n : Nat} (h : n < 10) : isDigitChar (digitChar n) = true := by
  interval_cases n <;> rfl

theorem natDigits_ne_nil (n : Nat) : natDigits n ≠ [] := by
  unfold natDigits
  split
  · simp
  · simp

theorem natDigits_all_digit (n : Nat) : ∀ c ∈ natDigits n, isDigitChar c = true := by
  induction n using Nat.strong_induction_on with
  | _ n ih =>
    unfold natDigits
    split
    · intro c hc
      rw [List.mem_singleton] at hc
      subst hc
      exact isDigitChar_digitChar (by omega)
    · intro c hc
      rw [List.mem_append] at hc
      rcases hc with hc | hc
      · exact ih (n / 10) (Nat.div_lt_self (by omega) (by omega)) c hc
      · rw [List.mem_singleton] at hc
        subst hc
        exact isDigitChar_digitChar (Nat.mod_lt _ (by omega))

theorem valOfDigits_append_digit (l : List Char) (c : Char) :
    valOfDigits (l ++ [c]) = valOfDigits l * 10 + (c.toNat - 48) := by
  unfold valOfDigits
  rw [List.foldl_append]
  rfl

theorem valOfDigits_natDigits (n : Nat) : valOfDigits (natDigits n) = n := by
  induction n using Nat.strong_induction_on with
  | _ n ih =>
    unfold natDigits
    split
    · next h =>
      show valOfDigits [digitChar n] = n
      unfold valOfDigits
      simp [toNat_digitChar h]
    · next h =>
      rw [valOfDigits_append_digit, ih (n / 10) (Nat.div_lt_self (by omega) (by omega)),
        toNat_digitChar (Nat.mod_lt _ (by omega))]
      omega

theorem parseNatDigits_natDigits (n : Nat) : parseNatDigits (natDigits n) = some n := by
  unfold parseNatDigits
  rw [if_pos, valOfDigits_natDigits]
  rw [Bool.and_eq_true]
  constructor
  · cases h : natDigits n with
    | nil => exact absurd h (natDigits_ne_nil n)
    | cons a b => simp
  · rw [List.all_eq_true]
    exact natDigits_all_digit n

theorem foldl_replicate_zero (k : Nat) :
    List.foldl (fun a c => a * 10 + (c.toNat - 48)) 0 (List.replicate k '0') = 0 := by
  induction k with
  | zero => rfl
  | succ k ihk => rw [List.replicate_succ]; simpa using ihk

theorem valOfDigits_padLeftZeros (w : Nat) (l : List Char) :
    valOfDigits (padLeftZeros w l) = valOfDigits l := by
  unfold padLeftZeros valOfDigits
  rw [List.foldl_append, foldl_replicate_zero]

theorem padDigits_all_digit (w n : Nat) : ∀ c ∈ padDigits w n, isDigitChar c = true := by
  intro c hc
  unfold padDigits padLeftZeros at hc
  rw [List.mem_append] at hc
  rcases hc with hc | hc
  · rw [List.eq_of_mem_replicate hc]
    rfl
  · exact natDigits_all_digit n c hc

theorem parseNatDigits_padDigits (w n : Nat) : parseNatDigits (padDigits w n) = some n := by
  unfold parseNatDigits
  rw [if_pos]
  · unfold padDigits
    rw [valOfDigits_padLeftZeros, valOfDigits_natDigits]
  · rw [Bool.and_eq_true]
    constructor
    · have : natDigits n ≠ [] := natDigits_ne_nil n
      cases h : padDigits w n with
      | nil =>
        unfold padDigits padLeftZeros at h
        rw [List.append_eq_nil] at h
        exact absurd h.2 this
      | cons a b => simp
    · rw [List.all_eq_true]
      exact padDigits_all_digit w n

theorem natDigits_length_le {n k : Nat} (hk : 0 < k) (hn : n < 10 ^ k) :
    (natDigits n).length ≤ k := by
  induction n using Nat.strong_induction_on generalizing k with
  | _ n ih =>
    unfold natDigits
    split
    · simpa using hk
    · next h =>
      rw [List.length_append]
      have hk2 : 2 ≤ k := by
        by_contra hlt
        interval_cases k <;> omega
      have hdiv : n / 10 < 10 ^ (k - 1) := by
        rw [Nat.div_lt_iff_lt_mul (by omega)]
        calc n < 10 ^ k := hn
          _ = 10 ^ (k - 1) * 10 := by
            rw [← pow_succ]
            congr 1
            omega
      have := ih (n / 10) (Nat.div_lt_self (by omega) (by omega)) (k := k - 1) (by omega) hdiv
      simp only [List.length_singleton]
      omega

theorem padDigits_length {w n : Nat} (h : (natDigits n).length ≤ w) :
    (padDigits w n).length = w := by
  unfold padDigits padLeftZeros
  rw [List.length_append, List.length_replicate]
  omega

theorem isDigitChar_ne_seps {c : Char} (h : isDigitChar c = true) :
    c ≠ '-' ∧ c ≠ ',' ∧ c ≠ ':' ∧ c ≠ '.' ∧ c ≠ 'T' := by
  refine ⟨?_, ?_, ?_, ?_, ?_⟩ <;> rintro rfl <;> exact absurd h (by decide)

theorem splitOnChar_of_not_mem (sep : Char) (l : List Char) (h : ∀ c ∈ l, c ≠ sep) :
    splitOnChar sep l = [l] := by
  induction l with
  | nil => rfl
  | cons c cs ihl =>
    unfold splitOnChar
    rw [if_neg (h c (List.mem_cons_self c cs))]
    rw [ihl (fun x hx => h x (List.mem_cons_of_mem c hx))]

theorem splitOnChar_append (sep : Char) (xs ys : List Char) (h : ∀ c ∈ xs, c ≠ sep) :
    splitOnChar sep (xs ++ sep :: ys) = xs :: splitOnChar sep ys := by
  induction xs with
  | nil =>
    show splitOnChar sep (sep :: ys) = [] :: splitOnChar sep ys
    conv_lhs => rw [splitOnChar]
    rw [if_pos rfl]
  | cons c cs ihx =>
    show splitOnChar sep (c :: (cs ++ sep :: ys)) = (c :: cs) :: splitOnChar sep ys
    conv_lhs => rw [splitOnChar]
    rw [if_neg (h c (List.mem_cons_self c cs))]
    rw [ihx (fun x hx => h x (List.mem_cons_of_mem c hx))]

theorem parseIntChars_intChars (i : Int) : parseIntChars (intChars i) = some i := by
  unfold intChars
  split
  · next hneg =>
    show parseIntChars ('-' :: natDigits i.natAbs) = some i
    simp only [parseIntChars]
    rw [if_pos trivial, parseNatDigits_natDigits]
    have h1 : ((i.natAbs : Int)) = -i := by omega
    show some (-(i.natAbs : Int)) = some i
    rw [h1, neg_neg]
  · next hpos =>
    obtain ⟨c, cs, hc⟩ : ∃ c cs, natDigits i.toNat = c :: cs := by
      cases h : natDigits i.toNat with
      | nil => exact absurd h (natDigits_ne_nil _)
      | cons a b => exact ⟨a, b, rfl⟩
    rw [hc]
    simp only [parseIntChars]
    rw [if_neg, ← hc, parseNatDigits_natDigits]
    · show some ((i.toNat : Int)) = some i
      rw [Int.toNat_of_nonneg (by omega)]
    · have : isDigitChar c = true := by
        apply natDigits_all_digit
        rw [hc]
        exact List.mem_cons_self c cs
      exact (isDigitChar_ne_seps this).1

/-! ### Temporal values and codecs (`databases.py`, lines 35-69)

`datetime.date`, `datetime.datetime` (naive) and `datetime.timedelta` are
embedded as records with the validity ranges the stdlib enforces;
`timedelta` is kept in Python's normalized representation
(`0 <= seconds < 86400`, `0 <= microseconds < 10**6`, days of either sign).
The `convert_*` parsers model `fromisoformat` / `int` on the byte strings
(taken as text) that the adapters emit. -/

structure PyDate where
  year : Nat
  month : Nat
  day : Nat
deriving DecidableEq, Repr

def isLeapYear (y : Nat) : Bool := y % 4 == 0 && (y % 100 != 0 || y % 400 == 0)

def daysInMonth (y m : Nat) : Nat :=
  if m = 2 then (if isLeapYear y then 29 else 28)
  else if m = 4 ∨ m = 6 ∨ m = 9 ∨ m = 11 then 30
  else 31

/-- The ranges `datetime.date` accepts (years 1..9999, real calendar days). -/
def PyDate.valid (d : PyDate) : Bool :=
  decide (1 ≤ d.year ∧ d.year ≤ 9999 ∧ 1 ≤ d.month ∧ d.month ≤ 12 ∧
    1 ≤ d.day ∧ d.day ≤ daysInMonth d.year d.month)

/-- `date.isoformat()`: `YYYY-MM-DD`, zero padded. -/
def dateChars (d : PyDate) : List Char :=
  padDigits 4 d.year ++ '-' :: (padDigits 2 d.month ++ '-' :: padDigits 2 d.day)

/-- `adapt_date_iso` (lines 35-37). -/
def adapt_date_iso (val : PyDate) : String := ⟨dateChars val⟩

/-- `date.fromisoformat` on a `YYYY-MM-DD` string. -/
def parseDateChars (l : List Char) : Option PyDate :=
  match splitOnChar '-' l with
  | [ys, ms, ds] =>
    match parseNatDigits ys, parseNatDigits ms, parseNatDigits ds with
    | some y, some m, some d =>
      if (PyDate.mk y m d).valid then some (PyDate.mk y m d) else none
    | _, _, _ => none
  | _ => none

/-- `convert_date` (lines 49-51); the incoming bytes are modelled as text. -/
def convert_date (val : String) : Option PyDate := parseDateChars val.data

structure PyDatetime where
  year : Nat
  month : Nat
  day : Nat
  hour : Nat
  minute : Nat
  second : Nat
  microsecond : Nat
deriving DecidableEq, Repr

def PyDatetime.dateOf (t : PyDatetime) : PyDate := ⟨t.year, t.month, t.day⟩

/-- The ranges `datetime.datetime` accepts (naive, microsecond precision). -/
def PyDatetime.valid (t : PyDatetime) : Bool :=
  t.dateOf.valid &&
    decide (t.hour ≤ 23 ∧ t.minute ≤ 59 ∧ t.second ≤ 59 ∧ t.microsecond ≤ 999999)

/-- `datetime.isoformat()` time part: `HH:MM:SS`, plus `.ffffff` exactly
when the microsecond field is nonzero (timespec `auto`). -/
def timeChars (t : PyDatetime) : List Char :=
  padDigits 2 t.hour ++ ':' :: (padDigits 2 t.minute ++ ':' ::
    (padDigits 2 t.second ++
      (if t.microsecond = 0 then [] else '.' :: padDigits 6 t.microsecond)))

/-- `adapt_datetime_iso` (lines 40-42). -/
def adapt_datetime_iso (val : PyDatetime) : String :=
  ⟨dateChars val.dateOf ++ 'T' :: timeChars val⟩

/-- Fractional-second field of `fromisoformat`: 1 to 6 digits, scaled up
to microseconds. -/
def parseMicroChars (frac : List Char) : Option Nat :=
  if frac.length = 0 ∨ 6 < frac.length then none
  else
    match parseNatDigits frac with
    | none => none
    | some n => some (n * 10 ^ (6 - frac.length))

/-- Parse `SS` or `SS.ffffff`. -/
def parseSecondMicro (l : List Char) : Option (Nat × Nat) :=
  match splitOnChar '.' l with
  | [ss] =>
    match parseNatDigits ss with
    | none => none
    | some s => some (s, 0)
  | [ss, frac] =>
    match parseNatDigits ss, parseMicroChars frac with
    | some s, some us => some (s, us)
    | _, _ => none
  | _ => none

/-- `convert_datetime` (lines 54-56): `datetime.fromisoformat` on
`<date>T<time>`. -/
def convert_datetime (val : String) : Option PyDatetime :=
  match splitOnChar 'T' val.data with
  | [dpart, tpart] =>
    match parseDateChars dpart with
    | none => none
    | some d =>
      match splitOnChar ':' tpart with
      | [hh, mm, rest] =>
        match parseNatDigits hh, parseNatDigits mm, parseSecondMicro rest with
        | some h, some mi, some (s, us) =>
          if (PyDatetime.mk d.year d.month d.day h mi s us).valid then
            some (PyDatetime.mk d.year d.month d.day h mi s us)
          else none
        | _, _, _ => none
      | _ => none
  | _ => none

structure PyTimedelta where
  days : Int
  seconds : Int
  microseconds : Int
deriving DecidableEq, Repr

/-- Python's normalized `timedelta` representation. -/
def PyTimedelta.valid (td : PyTimedelta) : Bool :=
  decide (0 ≤ td.seconds ∧ td.seconds < 86400 ∧
    0 ≤ td.microseconds ∧ td.microseconds < 1000000)

/-- `adapt_timedelta` (lines 45-46): the f-string
`days,seconds,microseconds` in exactly this field order, unpadded. -/
def adapt_timedelta (td : PyTimedelta) : String :=
  ⟨intChars td.days ++ ',' :: (intChars td.seconds ++ ',' :: intChars td.microseconds)⟩

/-- The `timedelta(days=..., seconds=..., microseconds=...)` constructor:
normalizes via floor divisions (`/` and `%` on `Int` are Euclidean here,
which agrees with Python's floor semantics because both divisors are
positive). -/
def mkPyTimedelta (d s us : Int) : PyTimedelta :=
  let total : Int := d * 86400000000 + s * 1000000 + us
  let q1 : Int := total / 1000000
  ⟨q1 / 86400, q1 % 86400, total % 1000000⟩

/-- `convert_timedelta` (lines 59-61): split on the commas, `int` each
field, rebuild the `timedelta`. -/
def convert_timedelta (val : String) : Option PyTimedelta :=
  match splitOnChar ',' val.data with
  | [a, b, c] =>
    match parseIntChars a, parseIntChars b, parseIntChars c with
    | some d, some s, some us => some (mkPyTimedelta d s us)
    | _, _, _ => none
  | _ => none

/-! ### Round-trip proofs -/

theorem mem_padDigits_ne_sep {w n : Nat} {sep : Char}
    (hsep : isDigitChar sep = false) : ∀ c ∈ padDigits w n, c ≠ sep := by
  intro c hc heq
  subst heq
  rw [padDigits_all_digit w n c hc] at hsep
  exact Bool.true_eq_false ▸ hsep.symm ▸ (by simp at hsep)

theorem splitOnChar_dateChars (d : PyDate) :
    splitOnChar '-' (dateChars d) =
      [padDigits 4 d.year, padDigits 2 d.month, padDigits 2 d.day] := by
  unfold dateChars
  rw [splitOnChar_append _ _ _ (mem_padDigits_ne_sep (by decide)),
    splitOnChar_append _ _ _ (mem_padDigits_ne_sep (by decide)),
    splitOnChar_of_not_mem _ _ (mem_padDigits_ne_sep (by decide))]

theorem parseDateChars_dateChars (d : PyDate) (h : d.valid = true) :
    parseDateChars (dateChars d) = some d := by
  unfold parseDateChars
  rw [splitOnChar_dateChars]
  dsimp only []
  rw [parseNatDigits_padDigits, parseNatDigits_padDigits, parseNatDigits_padDigits]
  show (if (PyDate.mk d.year d.month d.day).valid then some (PyDate.mk d.year d.month d.day)
    else none) = some d
  rw [show PyDate.mk d.year d.month d.day = d from rfl, if_pos h]

/-- C2 part 1: date round trip. -/
theorem convert_adapt_date (d : PyDate) (h : d.valid = true) :
    convert_date (adapt_date_iso d) = some d := by
  unfold convert_date adapt_date_iso
  exact parseDateChars_dateChars d h

theorem mem_dateChars {d : PyDate} {c : Char} (hc : c ∈ dateChars d) :
    isDigitChar c = true ∨ c = '-' := by
  unfold dateChars at hc
  simp only [List.mem_append, List.mem_cons] at hc
  rcases hc with hc | hc | hc | hc | hc
  · exact Or.inl (padDigits_all_digit _ _ c hc)
  · exact Or.inr hc
  · exact Or.inl (padDigits_all_digit _ _ c hc)
  · exact Or.inr hc
  · exact Or.inl (padDigits_all_digit _ _ c hc)

theorem mem_timeChars {t : PyDatetime} {c : Char} (hc : c ∈ timeChars t) :
    isDigitChar c = true ∨ c = ':' ∨ c = '.' := by
  unfold timeChars at hc
  simp only [List.mem_append, List.mem_cons] at hc
  rcases hc with hc | hc | hc | hc | hc | hc
  · exact Or.inl (padDigits_all_digit _ _ c hc)
  · exact Or.inr (Or.inl hc)
  · exact Or.inl (padDigits_all_digit _ _ c hc)
  · exact Or.inr (Or.inl hc)
  · exact Or.inl (padDigits_all_digit _ _ c hc)
  · split at hc
    · simp at hc
    · simp only [List.mem_cons] at hc
      rcases hc with hc | hc
      · exact Or.inr (Or.inr hc)
      · exact Or.inl (padDigits_all_digit _ _ c hc)

theorem splitOnChar_datetime (t : PyDatetime) :
    splitOnChar 'T' (dateChars t.dateOf ++ 'T' :: timeChars t) =
      [dateChars t.dateOf, timeChars t] := by
  rw [splitOnChar_append]
  · rw [splitOnChar_of_not_mem]
    intro c hc heq
    subst heq
    rcases mem_timeChars hc with h | h | h <;> exact absurd h (by decide)
  · intro c hc heq
    subst heq
    rcases mem_dateChars hc with h | h <;> exact absurd h (by decide)

theorem splitOnChar_timeChars (t : PyDatetime) :
    splitOnChar ':' (timeChars t) =
      [padDigits 2 t.hour, padDigits 2 t.minute,
        padDigits 2 t.second ++
          (if t.microsecond = 0 then [] else '.' :: padDigits 6 t.microsecond)] := by
  unfold timeChars
  rw [splitOnChar_append _ _ _ (mem_padDigits_ne_sep (by decide)),
    splitOnChar_append _ _ _ (mem_padDigits_ne_sep (by decide)),
    splitOnChar_of_not_mem]
  intro c hc heq
  subst heq
  rw [List.mem_append] at hc
  rcases hc with hc | hc
  · exact absurd (padDigits_all_digit _ _ _ hc) (by decide)
  · split at hc
    · simp at hc
    · simp only [List.mem_cons] at hc
      rcases hc with hc | hc
      · exact absurd hc (by decide)
      · exact absurd (padDigits_all_digit _ _ _ hc) (by decide)

theorem parseSecondMicro_timeTail (t : PyDatetime) (hus : t.microsecond ≤ 999999) :
    parseSecondMicro (padDigits 2 t.second ++
      (if t.microsecond = 0 then [] else '.' :: padDigits 6 t.microsecond)) =
      some (t.second, t.microsecond) := by
  by_cases h0 : t.microsecond = 0
  · rw [if_pos h0, List.append_nil]
    unfold parseSecondMicro
    rw [splitOnChar_of_not_mem _ _ (mem_padDigits_ne_sep (by decide))]
    dsimp only []
    rw [parseNatDigits_padDigits, h0]
  · rw [if_neg h0]
    unfold parseSecondMicro
    rw [splitOnChar_append _ _ _ (mem_padDigits_ne_sep (by decide)),
      splitOnChar_of_not_mem _ _ (mem_padDigits_ne_sep (by decide))]
    dsimp only []
    rw [parseNatDigits_padDigits]
    have hlen : (padDigits 6 t.microsecond).length = 6 := by
      apply padDigits_length
      exact natDigits_length_le (by omega) (by omega)
    unfold parseMicroChars
    rw [if_neg (by omega), parseNatDigits_padDigits, hlen]
    norm_num

/-- C2 part 2: datetime round trip at microsecond precision. -/
theorem convert_adapt_datetime (t : PyDatetime) (h : t.valid = true) :
    convert_datetime (adapt_datetime_iso t) = some t := by
  have hranges : t.hour ≤ 23 ∧ t.minute ≤ 59 ∧ t.second ≤ 59 ∧ t.microsecond ≤ 999999 := by
    unfold PyDatetime.valid at h
    rw [Bool.and_eq_true, decide_eq_true_eq] at h
    exact h.2
  have hdate : t.dateOf.valid = true := by
    unfold PyDatetime.valid at h
    rw [Bool.and_eq_true] at h
    exact h.1
  unfold convert_datetime adapt_datetime_iso
  rw [show (String.mk (dateChars t.dateOf ++ 'T' :: timeChars t)).data
      = dateChars t.dateOf ++ 'T' :: timeChars t from rfl]
  rw [splitOnChar_datetime]
  dsimp only []
  rw [parseDateChars_dateChars _ hdate, splitOnChar_timeChars]
  dsimp only []
  rw [parseNatDigits_padDigits, parseNatDigits_padDigits,
    parseSecondMicro_timeTail t hranges.2.2.2]
  show (if (PyDatetime.mk t.dateOf.year t.dateOf.month t.dateOf.day t.hour t.minute
      t.second t.microsecond).valid then
    some (PyDatetime.mk t.dateOf.year t.dateOf.month t.dateOf.day t.hour t.minute
      t.second t.microsecond) else none) = some t
  rw [show PyDatetime.mk t.dateOf.year t.dateOf.month t.dateOf.day t.hour t.minute
      t.second t.microsecond = t from rfl, if_pos h]

theorem mem_intChars {i : Int} {c : Char} (hc : c ∈ intChars i) :
    isDigitChar c = true ∨ c = '-' := by
  unfold intChars at hc
  split at hc
  · simp only [List.mem_cons] at hc
    rcases hc with hc | hc
    · exact Or.inr hc
    · exact Or.inl (natDigits_all_digit _ c hc)
  · exact Or.inl (natDigits_all_digit _ c hc)

theorem mem_intChars_ne_comma {i : Int} : ∀ c ∈ intChars i, c ≠ ',' := by
  intro c hc heq
  subst heq
  rcases mem_intChars hc with h | h <;> exact absurd h (by decide)

theorem mkPyTimedelta_normalized (td : PyTimedelta) (h : td.valid = true) :
    mkPyTimedelta td.days td.seconds td.microseconds = td := by
  unfold PyTimedelta.valid at h
  rw [decide_eq_true_eq] at h
  unfold mkPyTimedelta
  rw [show td = PyTimedelta.mk td.days td.seconds td.microseconds from rfl]
  simp only [PyTimedelta.mk.injEq]
  refine ⟨?_, ?_, ?_⟩ <;> omega

/-- C2 part 3: timedelta round trip, field order `days,seconds,microseconds`. -/
theorem convert_adapt_timedelta (td : PyTimedelta) (h : td.valid = true) :
    convert_timedelta (adapt_timedelta td) = some td := by
  unfold convert_timedelta adapt_timedelta
  rw [show (String.mk (intChars td.days ++ ',' ::
      (intChars td.seconds ++ ',' :: intChars td.microseconds))).data
      = intChars td.days ++ ',' :: (intChars td.seconds ++ ',' :: intChars td.microseconds)
      from rfl]
  rw [splitOnChar_append _ _ _ mem_intChars_ne_comma,
    splitOnChar_append _ _ _ mem_intChars_ne_comma,
    splitOnChar_of_not_mem _ _ mem_intChars_ne_comma]
  dsimp only []
  rw [parseIntChars_intChars, parseIntChars_intChars, parseIntChars_intChars]
  rw [show (match some td.days, some td.seconds, some td.microseconds with
    | some d, some s, some us => some (mkPyTimedelta d s us)
    | _, _, _ => none) = some (mkPyTimedelta td.days td.seconds td.microseconds) from rfl]
  rw [mkPyTimedelta_normalized td h]

/-- C2: the temporal codecs satisfy `decode(encode(v)) = v` — for every
valid date, for every valid naive timestamp at microsecond precision, and
for every normalized duration (zero and negative included), the encoded
duration keeping the field order `days,seconds,microseconds`. -/
theorem temporal_codecs_roundtrip (d : PyDate) (t : PyDatetime) (td : PyTimedelta)
    (hd : d.valid = true) (ht : t.valid = true) (htd : td.valid = true) :
    convert_date (adapt_date_iso d) = some d ∧
    convert_datetime (adapt_datetime_iso t) = some t ∧
    convert_timedelta (adapt_timedelta td) = some td :=
  ⟨convert_adapt_date d hd, convert_adapt_datetime t ht, convert_adapt_timedelta td htd⟩

/-- Witness for C2 at concrete inputs: a leap-day date, a timestamp with
nonzero microseconds, and a negative duration (`timedelta(microseconds=-1)`
in normalized form). -/
theorem temporal_codecs_roundtrip_witness :
    convert_date (adapt_date_iso (PyDate.mk 2024 2 29)) = some (PyDate.mk 2024 2 29) ∧
    convert_datetime (adapt_datetime_iso (PyDatetime.mk 2024 6 24 20 37 43 123456)) =
      some (PyDatetime.mk 2024 6 24 20 37 43 123456) ∧
    convert_timedelta (adapt_timedelta (PyTimedelta.mk (-1) 86399 999999)) =
      some (PyTimedelta.mk (-1) 86399 999999) :=
  temporal_codecs_roundtrip (PyDate.mk 2024 2 29) (PyDatetime.mk 2024 6 24 20 37 43 123456)
    (PyTimedelta.mk (-1) 86399 999999) (by decide) (by decide) (by decide)

/-! ### The `Database` class as a state machine (`databases.py`, lines 76-286)

A `Database` instance is reduced to its observable state: the contents of
the underlying store (per table: the declared schema and the rows) and
whether the single connection handle `_con` is open.  Each method becomes
a function on that state returning the Python result (`Except`), the
successor state, and the trace of connection/statement events performed,
in order.  The sqlite engine itself is external; its documented behaviour
for the four statement shapes the module emits (`CREATE TABLE IF NOT
EXISTS`, `PRAGMA table_info`, `INSERT`, raw text) is modelled
structurally, with `with con:` transaction scopes rolling the store back
on failure. -/

/-- A bound parameter value (row values are never interpolated). -/
inductive SQLValue where
  | null
  | int (i : Int)
  | real (q : Int)
  | text (s : String)
deriving DecidableEq, Repr

abbrev Row := List SQLValue

/-- One table: declared columns (name, declared type) in order, and rows. -/
structure Table where
  schema : List (String × String)
  rows : List Row
deriving DecidableEq, Repr

abbrev Store := List (String × Table)

structure DBState where
  store : Store
  con : Bool
deriving DecidableEq, Repr

inductive StmtKind where
  | createStmt
  | pragmaStmt
  | insertStmt
  | rawStmt
deriving DecidableEq, Repr

/-- Connection lifecycle and statement events, in execution order. -/
inductive Event where
  | acquire
  | release
  | exec (k : StmtKind)
deriving DecidableEq, Repr

/-- Result of a method call: Python outcome, successor state, event trace. -/
abbrev DBResult (α : Type) := Except DBError α × DBState × List Event

/-- Row shape of `PRAGMA table_info`:
`(cid, name, type, notnull, dflt_value, pk)`. -/
structure SQLiteColumnDescription where
  cid : Nat
  name : String
  colType : String
  notnull : Nat
  dfltValue : Option String
  pk : Nat
deriving DecidableEq, Repr

/-- `CREATE TABLE IF NOT EXISTS`: a no-op when the table exists, a parse
error for an empty column list (sqlite rejects `CREATE TABLE t ()`). -/
def createTableIfNotExists (s : Store) (name : String)
    (schema : List (String × String)) : Except String Store :=
  if schema.isEmpty then .error "incomplete input"
  else if (List.lookup name s).isSome then .ok s
  else .ok (s ++ [(name, ⟨schema, []⟩)])

/-- `PRAGMA table_info(name)`: one description per declared column, empty
when the table does not exist.  (sqlite additionally parses constraint
tokens into the `notnull`/`pk` flags; the claims below depend only on the
length of this list and on its equality across calls, so the declared
pair is carried through unparsed.) -/
def tableInfo (s : Store) (name : String) : List SQLiteColumnDescription :=
  match List.lookup name s with
  | none => []
  | some t => t.schema.enum.map (fun p => ⟨p.1, p.2.1, p.2.2, 0, none, 0⟩)

def updateTable (s : Store) (name : String) (t : Table) : Store :=
  s.map (fun p => if p.1 = name then (name, t) else p)

/-- Execute one `INSERT INTO name VALUES (?, ..)` with bound `row`. -/
def insertRow (s : Store) (name : String) (row : Row) : Except String Store :=
  match List.lookup name s with
  | none => .error ("no such table: " ++ name)
  | some t =>
    if row.length = t.schema.length then
      .ok (updateTable s name ⟨t.schema, t.rows ++ [row]⟩)
    else .error "Incorrect number of bindings supplied."

/-- `executemany`: the statement once per row; the surrounding
transaction makes a failure roll back the whole batch (the caller keeps
the old store). -/
def insertRows (s : Store) (name : String) : List Row → Except String Store
  | [] => .ok s
  | r :: rest =>
    match insertRow s name r with
    | .error e => .error e
    | .ok s' => insertRows s' name rest

/-- Modelled from the spec: the allowed base type set supplied by
`pyforcesim.types.DB_DATA_TYPES`, which the repository does not ship
under `src/`.  Section 9 of the spec enumerates the value variants
(integer, text, real, date, timestamp, duration, binary); the three
temporal declared-type names are those of the codec registry. -/
def DB_DATA_TYPES : List String :=
  ["INTEGER", "REAL", "TEXT", "BLOB", "DATE", "DATETIME", "TIMEDELTA"]

/-- Modelled from the spec: the supported column constraints supplied by
`pyforcesim.types.DB_SUPPORTED_COL_CONSTRAINTS`, absent from `src/`; the
spec's only named constraint example is `PRIMARY KEY`. -/
def DB_SUPPORTED_COL_CONSTRAINTS : List String := ["PRIMARY KEY"]

/-- `db_data_types_additional` (lines 28-29): each base type joined with
each supported constraint by a single space. -/
def db_data_types_additional : List String :=
  (DB_DATA_TYPES.product DB_SUPPORTED_COL_CONSTRAINTS).map (fun p => p.1 ++ " " ++ p.2)

/-- `DB_DATA_TYPES_ALLOWED` (lines 30-32); the Python `frozenset` is kept
as a list, membership being all the module uses. -/
def DB_DATA_TYPES_ALLOWED : List String := DB_DATA_TYPES ++ db_data_types_additional

/-- Message of the type-vocabulary `ValueError` (lines 132-137). -/
def vocabErrMsg (ct : String) : String :=
  "Column type " ++ ct ++ " not allowed. Must be one of: " ++ toString DB_DATA_TYPES_ALLOWED

/-- Message of the arity `ValueError` (lines 242-248). -/
def arityMsg (k n : Nat) : String :=
  "Number of data elements >>" ++ toString k ++
    "<< does not match number of columns >>" ++ toString n ++ "<<."

/-- Message of `CommonSQLError` in `get_columns` (lines 177-180). -/
def schemaNotFoundMsg (t : String) : String :=
  "Column retrieval failed. Maybe table >>" ++ t ++ "<< does not exist."

/-- `str.upper()` on the ASCII range (type tokens are ASCII); written on
the character list so that it evaluates by reduction. -/
def charUpper (c : Char) : Char :=
  if 97 ≤ c.toNat && c.toNat ≤ 122 then Char.ofNat (c.toNat - 32) else c

def strUpper (s : String) : String := ⟨s.data.map charUpper⟩

namespace Database

/-- Loop body of `_format_column_declaration` (lines 124-144): per column
(in declaration order) uppercase the type, check the vocabulary, sanitize
name and type, produce the `"name TYPE"` fragment. -/
def formatColumnFragments : List (String × String) → Except DBError (List String)
  | [] => .ok []
  | (col_name, ct0) :: rest =>
    let col_type := strUpper ct0
    if DB_DATA_TYPES_ALLOWED.contains col_type then
      match _clean_query_injection col_name with
      | .error e => .error e
      | .ok cn =>
        match _clean_query_injection col_type with
        | .error e => .error e
        | .ok ct =>
          match formatColumnFragments rest with
          | .error e => .error e
          | .ok l => .ok ((cn ++ " " ++ ct) :: l)
    else .error (.validation (vocabErrMsg col_type))

/-- `Database._format_column_declaration` (lines 124-144). -/
def _format_column_declaration (columns : List (String × String)) : Except DBError String :=
  match formatColumnFragments columns with
  | .error e => .error e
  | .ok l => .ok (String.intercalate ", " l)

/-- `Database.get_connection` (lines 146-152): reuse an open handle (with
only a logged warning), otherwise open one. -/
def get_connection (st : DBState) : DBState × List Event :=
  if st.con then (st, []) else ({ st with con := true }, [.acquire])

/-- `Database.close_connection` (lines 154-159): close and clear the
handle if present, otherwise only log a warning. -/
def close_connection (st : DBState) : DBState × List Event :=
  if st.con then ({ st with con := false }, [.release]) else (st, [])

/-- `Database.get_columns` (lines 161-182): sanitize, `PRAGMA table_info`
inside a connection that is closed in `finally`, then fail on an empty
result. -/
def get_columns (st : DBState) (table_name : String) :
    DBResult (List SQLiteColumnDescription) :=
  match _clean_query_injection table_name with
  | .error e => (.error e, st, [])
  | .ok tn =>
    let (st1, ev1) := get_connection st
    let columns := tableInfo st1.store tn
    let (st2, ev2) := close_connection st1
    if columns.isEmpty then
      (.error (.schemaNotFound (schemaNotFoundMsg tn)), st2, ev1 ++ [.exec .pragmaStmt] ++ ev2)
    else
      (.ok columns, st2, ev1 ++ [.exec .pragmaStmt] ++ ev2)

/-- `Database.execute_query` (lines 186-198), the unchecked escape hatch.
What the engine does with the raw text is abstracted as the `engine`
argument (result rows and successor store, or a failure rolling the
transaction back). -/
def execute_query (st : DBState) (query : String)
    (engine : String → Store → Except String (List Row × Store)) :
    DBResult (Option (List Row)) :=
  let (st1, ev1) := get_connection st
  match engine query st1.store with
  | .error m =>
    let (st2, ev2) := close_connection st1
    (.error (.storeError m), st2, ev1 ++ [.exec .rawStmt] ++ ev2)
  | .ok (response, store') =>
    let (st2, ev2) := close_connection { st1 with store := store' }
    (.ok (if response.isEmpty then none else some response), st2,
      ev1 ++ [.exec .rawStmt] ++ ev2)

/-- `Database.create_table` (lines 203-221): sanitize the name, format the
columns (both before any connection), then execute
`CREATE TABLE IF NOT EXISTS <name> (<fragments>)` with the connection
closed in `finally`. -/
def create_table (st : DBState) (table_name : String)
    (columns : List (String × String)) : DBResult Unit :=
  match _clean_query_injection table_name with
  | .error e => (.error e, st, [])
  | .ok tn =>
    match _format_column_declaration columns with
    | .error e => (.error e, st, [])
    | .ok _col_query =>
      let (st1, ev1) := get_connection st
      match createTableIfNotExists st1.store tn
          (columns.map (fun p => (p.1, strUpper p.2))) with
      | .error m =>
        let (st2, ev2) := close_connection st1
        (.error (.storeError m), st2, ev1 ++ [.exec .createStmt] ++ ev2)
      | .ok store' =>
        let (st2, ev2) := close_connection { st1 with store := store' }
        (.ok (), st2, ev1 ++ [.exec .createStmt] ++ ev2)

/-- `Database.prepare_insertion_query` (lines 223-233): reflect the
columns (this opens and closes a connection of its own), then build the
placeholder statement and the expected arity. -/
def prepare_insertion_query (st : DBState) (table_name : String) :
    DBResult (String × Nat) :=
  match get_columns st table_name with
  | (.error e, st', ev) => (.error e, st', ev)
  | (.ok columns, st', ev) =>
    let num_cols := columns.length
    let placeholders := String.intercalate ", " (columns.map (fun _ => "?"))
    (.ok ("INSERT INTO " ++ table_name ++ " VALUES (" ++ placeholders ++ ")", num_cols),
      st', ev)

/-- `Database.prepare_insertion` (lines 235-250): sanitize, build the
statement, then reject a row whose width differs from the arity. -/
def prepare_insertion (st : DBState) (table_name : String) (data : Row) :
    DBResult String :=
  match _clean_query_injection table_name with
  | .error e => (.error e, st, [])
  | .ok tn =>
    match prepare_insertion_query st tn with
    | (.error e, st', ev) => (.error e, st', ev)
    | (.ok (query, num_cols), st', ev) =>
      if data.length ≠ num_cols then
        (.error (.arityMismatch (arityMsg data.length num_cols)), st', ev)
      else (.ok query, st', ev)

/-- `Database.insert` (lines 252-268): prepare (which reflects via its own
connection), then acquire again and execute the single-row insert with the
connection closed in `finally`. -/
def insert (st : DBState) (table_name : String) (data : Row) : DBResult Unit :=
  match prepare_insertion st table_name data with
  | (.error e, st', ev) => (.error e, st', ev)
  | (.ok _query, st', ev) =>
    let (st1, ev1) := get_connection st'
    match insertRow st1.store table_name data with
    | .error m =>
      let (st2, ev2) := close_connection st1
      (.error (.storeError m), st2, ev ++ ev1 ++ [.exec .insertStmt] ++ ev2)
    | .ok store' =>
      let (st2, ev2) := close_connection { st1 with store := store' }
      (.ok (), st2, ev ++ ev1 ++ [.exec .insertStmt] ++ ev2)

/-- `Database.insert_many` (lines 270-286): `data[0]` is evaluated first
(raising `IndexError` on an empty batch), then as `insert` but with
`executemany`. -/
def insert_many (st : DBState) (table_name : String) (data : List Row) : DBResult Unit :=
  match data with
  | [] => (.error .indexError, st, [])
  | first :: _ =>
    match prepare_insertion st table_name first with
    | (.error e, st', ev) => (.error e, st', ev)
    | (.ok _query, st', ev) =>
      let (st1, ev1) := get_connection st'
      match insertRows st1.store table_name data with
      | .error m =>
        let (st2, ev2) := close_connection st1
        (.error (.storeError m), st2, ev ++ ev1 ++ [.exec .insertStmt] ++ ev2)
      | .ok store' =>
        let (st2, ev2) := close_connection { st1 with store := store' }
        (.ok (), st2, ev ++ ev1 ++ [.exec .insertStmt] ++ ev2)

end Database

/-! ### Behaviour lemmas for the state machine -/

theorem DBState.eta_closed {st : DBState} (h : st.con = false) : st = ⟨st.store, false⟩ := by
  cases st with
  | mk s c =>
    have h' : c = false := h
    subst h'
    rfl

/-- The sanitizer either accepts the value unchanged or raises the
`ValueError` naming it. -/
theorem clean_cases (t : String) :
    Database._clean_query_injection t = .ok t ∨
    Database._clean_query_injection t =
      .error (.validation ("Unallowed characters in value " ++ t ++ ".")) := by
  unfold Database._clean_query_injection
  split
  · exact Or.inr rfl
  · exact Or.inl rfl

theorem get_connection_closed (s : Store) :
    Database.get_connection ⟨s, false⟩ = (⟨s, true⟩, [Event.acquire]) := rfl

theorem close_connection_open (s : Store) :
    Database.close_connection ⟨s, true⟩ = (⟨s, false⟩, [Event.release]) := rfl

theorem tableInfo_of_none {s : Store} {t : String} (h : List.lookup t s = none) :
    tableInfo s t = [] := by
  unfold tableInfo
  rw [h]

theorem tableInfo_of_some {s : Store} {t : String} {tbl : Table}
    (h : List.lookup t s = some tbl) :
    tableInfo s t = tbl.schema.enum.map (fun p => ⟨p.1, p.2.1, p.2.2, 0, none, 0⟩) := by
  unfold tableInfo
  rw [h]

theorem tableInfo_length {s : Store} {t : String} {tbl : Table}
    (h : List.lookup t s = some tbl) :
    (tableInfo s t).length = tbl.schema.length := by
  rw [tableInfo_of_some h, List.length_map, List.enum_length]

theorem tableInfo_isEmpty_false {s : Store} {t : String} {tbl : Table}
    (h : List.lookup t s = some tbl) (hne : tbl.schema ≠ []) :
    (tableInfo s t).isEmpty = false := by
  have hlen : (tableInfo s t).length = tbl.schema.length := tableInfo_length h
  cases hti : tableInfo s t with
  | nil =>
    rw [hti] at hlen
    exact absurd (List.length_eq_zero.mp hlen.symm) hne
  | cons a b => rfl

/-- `get_columns` on a closed connection when the name fails sanitization. -/
theorem gc_badname {t : String} (s : Store) {e : DBError}
    (h : Database._clean_query_injection t = .error e) :
    Database.get_columns ⟨s, false⟩ t = (.error e, ⟨s, false⟩, []) := by
  unfold Database.get_columns
  rw [h]

/-- `get_columns` on a missing table: the `finally` closes the
connection, then the empty introspection result raises. -/
theorem gc_missing {s : Store} {t : String}
    (hn : Database._clean_query_injection t = .ok t)
    (hab : List.lookup t s = none) :
    Database.get_columns ⟨s, false⟩ t =
      (.error (.schemaNotFound (schemaNotFoundMsg t)), ⟨s, false⟩,
        [Event.acquire, Event.exec .pragmaStmt, Event.release]) := by
  unfold Database.get_columns
  rw [hn]
  dsimp only []
  rw [get_connection_closed]
  dsimp only []
  rw [close_connection_open]
  dsimp only []
  rw [if_pos]
  · rfl
  · rw [tableInfo_of_none hab]
    rfl

/-- `get_columns` on an existing (nonempty-schema) table. -/
theorem gc_found {s : Store} {t : String} {tbl : Table}
    (hn : Database._clean_query_injection t = .ok t)
    (htab : List.lookup t s = some tbl) (hne : tbl.schema ≠ []) :
    Database.get_columns ⟨s, false⟩ t =
      (.ok (tableInfo s t), ⟨s, false⟩,
        [Event.acquire, Event.exec .pragmaStmt, Event.release]) := by
  unfold Database.get_columns
  rw [hn]
  dsimp only []
  rw [get_connection_closed]
  dsimp only []
  rw [close_connection_open]
  dsimp only []
  rw [if_neg]
  · rfl
  · simp [tableInfo_isEmpty_false htab hne]

/-- The `INSERT` statement text built by `prepare_insertion_query`. -/
def insertQueryOf (t : String) (cols : List SQLiteColumnDescription) : String :=
  "INSERT INTO " ++ t ++ " VALUES (" ++
    String.intercalate ", " (cols.map (fun _ => "?")) ++ ")"

/-- `prepare_insertion` rejecting a row of the wrong width: the events are
those of the reflection connection only, the state is unchanged. -/
theorem pi_mismatch {s : Store} {t : String} {tbl : Table} {data : Row}
    (hn : Database._clean_query_injection t = .ok t)
    (htab : List.lookup t s = some tbl) (hne : tbl.schema ≠ [])
    (hk : data.length ≠ tbl.schema.length) :
    Database.prepare_insertion ⟨s, false⟩ t data =
      (.error (.arityMismatch (arityMsg data.length tbl.schema.length)), ⟨s, false⟩,
        [Event.acquire, Event.exec .pragmaStmt, Event.release]) := by
  unfold Database.prepare_insertion Database.prepare_insertion_query
  rw [hn]
  dsimp only []
  rw [gc_found hn htab hne]
  dsimp only []
  rw [if_pos (show data.length ≠ (tableInfo s t).length by

    rw [tableInfo_length htab]
    exact hk)]
  rw [tableInfo_length htab]

/-- `prepare_insertion` accepting a row of the right width. -/
theorem pi_ok {s : Store} {t : String} {tbl : Table} {data : Row}
    (hn : Database._clean_query_injection t = .ok t)
    (htab : List.lookup t s = some tbl) (hne : tbl.schema ≠ [])
    (hk : data.length = tbl.schema.length) :
    Database.prepare_insertion ⟨s, false⟩ t data =
      (.ok (insertQueryOf t (tableInfo s t)), ⟨s, false⟩,
        [Event.acquire, Event.exec .pragmaStmt, Event.release]) := by
  unfold Database.prepare_insertion Database.prepare_insertion_query
  rw [hn]
  dsimp only []
  rw [gc_found hn htab hne]
  dsimp only []
  rw [if_neg (show ¬data.length ≠ (tableInfo s t).length by

    rw [tableInfo_length htab]
    exact not_not_intro hk)]
  rfl

/-- `insert` rejecting a row of the wrong width: no second connection, no
insert statement, state unchanged. -/
theorem ins_mismatch {s : Store} {t : String} {tbl : Table} {data : Row}
    (hn : Database._clean_query_injection t = .ok t)
    (htab : List.lookup t s = some tbl) (hne : tbl.schema ≠ [])
    (hk : data.length ≠ tbl.schema.length) :
    Database.insert ⟨s, false⟩ t data =
      (.error (.arityMismatch (arityMsg data.length tbl.schema.length)), ⟨s, false⟩,
        [Event.acquire, Event.exec .pragmaStmt, Event.release]) := by
  unfold Database.insert
  rw [pi_mismatch hn htab hne hk]

/-- `insert_many` whose first row has the wrong width behaves exactly as
the single-row mismatch, whatever the widths of the later rows. -/
theorem im_mismatch {s : Store} {t : String} {tbl : Table} {r : Row} {rs : List Row}
    (hn : Database._clean_query_injection t = .ok t)
    (htab : List.lookup t s = some tbl) (hne : tbl.schema ≠ [])
    (hk : r.length ≠ tbl.schema.length) :
    Database.insert_many ⟨s, false⟩ t (r :: rs) =
      (.error (.arityMismatch (arityMsg r.length tbl.schema.length)), ⟨s, false⟩,
        [Event.acquire, Event.exec .pragmaStmt, Event.release]) := by
  unfold Database.insert_many
  dsimp only []
  rw [pi_mismatch hn htab hne hk]

/-- `insert_many` whose first row has the right width always reaches the
execution of the insert statement on a second connection; its outcome is
success or an engine error, never the arity `ValueError`. -/
theorem im_firstok {s : Store} {t : String} {tbl : Table} {r : Row} {rs : List Row}
    (hn : Database._clean_query_injection t = .ok t)
    (htab : List.lookup t s = some tbl) (hne : tbl.schema ≠ [])
    (hk : r.length = tbl.schema.length) :
    ∃ res s2,
      Database.insert_many ⟨s, false⟩ t (r :: rs) =
        (res, ⟨s2, false⟩,
          [Event.acquire, Event.exec .pragmaStmt, Event.release,
            Event.acquire, Event.exec .insertStmt, Event.release]) ∧
      (res = .ok () ∨ ∃ m, res = .error (.storeError m)) := by
  unfold Database.insert_many
  dsimp only []
  rw [pi_ok hn htab hne hk]
  dsimp only []
  rw [get_connection_closed]
  dsimp only []
  cases hrows : insertRows s t (r :: rs) with
  | error m =>
    dsimp only []
    rw [close_connection_open]
    exact ⟨.error (.storeError m), s, rfl, Or.inr ⟨m, rfl⟩⟩
  | ok s2 =>
    dsimp only []
    rw [close_connection_open]
    exact ⟨.ok (), s2, rfl, Or.inl rfl⟩

theorem lookup_append_self {s : Store} {t : String} {v : Table}
    (hab : List.lookup t s = none) : List.lookup t (s ++ [(t, v)]) = some v := by
  induction s with
  | nil => simp [List.lookup]
  | cons p ps ih =>
    cases p with
    | mk k b =>
      cases hbeq : (t == k) with
      | true =>
        rw [List.lookup] at hab
        rw [hbeq] at hab
        exact absurd hab (by simp)
      | false =>
        rw [List.cons_append, List.lookup, hbeq]
        apply ih
        rw [List.lookup, hbeq] at hab
        exact hab

theorem createTableIfNotExists_exists {s : Store} {t : String} {sch : List (String × String)}
    (hne : sch ≠ []) (hex : (List.lookup t s).isSome = true) :
    createTableIfNotExists s t sch = .ok s := by
  have h1 : sch.isEmpty = false := by
    cases sch with
    | nil => exact absurd rfl hne
    | cons a as => rfl
  unfold createTableIfNotExists
  rw [if_neg (show ¬sch.isEmpty = true by simp [h1]), if_pos hex]

theorem createTableIfNotExists_new {s : Store} {t : String} {sch : List (String × String)}
    (hne : sch ≠ []) (hab : List.lookup t s = none) :
    createTableIfNotExists s t sch = .ok (s ++ [(t, ⟨sch, []⟩)]) := by
  have h1 : sch.isEmpty = false := by
    cases sch with
    | nil => exact absurd rfl hne
    | cons a as => rfl
  unfold createTableIfNotExists
  rw [if_neg (show ¬sch.isEmpty = true by simp [h1]),
    if_neg (show ¬(List.lookup t s).isSome = true by simp [hab])]

/-- The uppercased declaration that `create_table` stores. -/
def upperCols (columns : List (String × String)) : List (String × String) :=
  columns.map (fun p => (p.1, strUpper p.2))

theorem upperCols_ne_nil {columns : List (String × String)} (h : columns ≠ []) :
    List.map (fun p : String × String => (p.1, strUpper p.2)) columns ≠ [] := by
  cases columns with
  | nil => exact absurd rfl h
  | cons a as => exact List.cons_ne_nil _ _

/-- `create_table` when the table already exists: `IF NOT EXISTS` makes
the statement a no-op, not an error. -/
theorem ct_exists {s : Store} {t : String} {cols : List (String × String)} {q : String}
    (hn : Database._clean_query_injection t = .ok t)
    (hc : Database._format_column_declaration cols = .ok q) (hcols : cols ≠ [])
    (hex : (List.lookup t s).isSome = true) :
    Database.create_table ⟨s, false⟩ t cols =
      (.ok (), ⟨s, false⟩, [Event.acquire, Event.exec .createStmt, Event.release]) := by
  unfold Database.create_table
  rw [hn]
  dsimp only []
  rw [hc]
  dsimp only []
  rw [get_connection_closed]
  dsimp only []
  rw [@createTableIfNotExists_exists s t (List.map (fun p => (p.1, strUpper p.2)) cols)
    (upperCols_ne_nil hcols) hex]
  dsimp only []
  rw [close_connection_open]
  rfl

/-- `create_table` on a fresh name: the table is appended with the
uppercased declared types and no rows. -/
theorem ct_new {s : Store} {t : String} {cols : List (String × String)} {q : String}
    (hn : Database._clean_query_injection t = .ok t)
    (hc : Database._format_column_declaration cols = .ok q) (hcols : cols ≠ [])
    (hab : List.lookup t s = none) :
    Database.create_table ⟨s, false⟩ t cols =
      (.ok (), ⟨s ++ [(t, ⟨upperCols cols, []⟩)], false⟩,
        [Event.acquire, Event.exec .createStmt, Event.release]) := by
  unfold Database.create_table
  rw [hn]
  dsimp only []
  rw [hc]
  dsimp only []
  rw [get_connection_closed]
  dsimp only []
  rw [@createTableIfNotExists_new s t (List.map (fun p => (p.1, strUpper p.2)) cols)
    (upperCols_ne_nil hcols) hab]
  dsimp only []
  rw [close_connection_open]
  rfl

/-- Full run of `get_columns` from a closed connection once the name
passes sanitization: one acquire, the pragma, one release, and the result
decided by emptiness of the introspection. -/
theorem gc_run (s : Store) (t : String)
    (hok : Database._clean_query_injection t = .ok t) :
    Database.get_columns ⟨s, false⟩ t =
      ((if (tableInfo s t).isEmpty then
          .error (.schemaNotFound (schemaNotFoundMsg t))
        else .ok (tableInfo s t)), ⟨s, false⟩,
        [Event.acquire, Event.exec .pragmaStmt, Event.release]) := by
  unfold Database.get_columns
  rw [hok]
  dsimp only []
  rw [get_connection_closed]
  dsimp only []
  rw [close_connection_open]
  dsimp only []
  by_cases hc : (tableInfo s t).isEmpty = true
  · rw [if_pos hc, if_pos hc]
    rfl
  · rw [if_neg hc, if_neg hc]
    rfl

/-- Every run of `prepare_insertion` from a closed connection either
fails before any connection (bad name) or performs exactly the
reflection connection's acquire/pragma/release, leaving the state
unchanged. -/
theorem prepare_run (s : Store) (t : String) (data : Row) :
    (∃ e, Database.prepare_insertion ⟨s, false⟩ t data = (.error e, ⟨s, false⟩, [])) ∨
    (∃ r, Database.prepare_insertion ⟨s, false⟩ t data =
      (r, ⟨s, false⟩, [Event.acquire, Event.exec .pragmaStmt, Event.release])) := by
  rcases clean_cases t with hok | herr
  · right
    unfold Database.prepare_insertion Database.prepare_insertion_query
    rw [hok]
    dsimp only []
    rw [gc_run s t hok]
    by_cases hc : (tableInfo s t).isEmpty = true
    · rw [if_pos hc]
      dsimp only []
      exact ⟨_, rfl⟩
    · rw [if_neg hc]
      dsimp only []
      by_cases hk : data.length ≠ (tableInfo s t).length
      · rw [if_pos hk]
        exact ⟨_, rfl⟩
      · rw [if_neg hk]
        exact ⟨_, rfl⟩
  · left
    refine ⟨.validation ("Unallowed characters in value " ++ t ++ "."), ?_⟩
    unfold Database.prepare_insertion
    rw [herr]

/-- Every run of `insert` from a closed connection: early validation
failure with no events, failure during preparation with the reflection
connection's events only, or a full run with two acquire/release cycles. -/
theorem insert_run (s : Store) (t : String) (data : Row) :
    (∃ e, Database.insert ⟨s, false⟩ t data = (.error e, ⟨s, false⟩, [])) ∨
    (∃ r, Database.insert ⟨s, false⟩ t data =
      (r, ⟨s, false⟩, [Event.acquire, Event.exec .pragmaStmt, Event.release])) ∨
    (∃ r s2, Database.insert ⟨s, false⟩ t data =
      (r, ⟨s2, false⟩,
        [Event.acquire, Event.exec .pragmaStmt, Event.release,
          Event.acquire, Event.exec .insertStmt, Event.release])) := by
  rcases prepare_run s t data with ⟨e, he⟩ | ⟨r, hr⟩
  · left
    exact ⟨e, by unfold Database.insert; rw [he]⟩
  · cases r with
    | error e =>
      right; left
      exact ⟨.error e, by unfold Database.insert; rw [hr]⟩
    | ok qs =>
      right; right
      unfold Database.insert
      rw [hr]
      dsimp only []
      rw [get_connection_closed]
      dsimp only []
      cases hrow : insertRow s t data with
      | error m =>
        dsimp only []
        rw [close_connection_open]
        exact ⟨.error (.storeError m), s, rfl⟩
      | ok s2 =>
        dsimp only []
        rw [close_connection_open]
        exact ⟨.ok (), s2, rfl⟩

/-- Every run of `insert_many` from a closed connection: as `insert`,
with the empty batch failing on `data[0]` before anything else. -/
theorem insert_many_run (s : Store) (t : String) (data : List Row) :
    (∃ e, Database.insert_many ⟨s, false⟩ t data = (.error e, ⟨s, false⟩, [])) ∨
    (∃ r, Database.insert_many ⟨s, false⟩ t data =
      (r, ⟨s, false⟩, [Event.acquire, Event.exec .pragmaStmt, Event.release])) ∨
    (∃ r s2, Database.insert_many ⟨s, false⟩ t data =
      (r, ⟨s2, false⟩,
        [Event.acquire, Event.exec .pragmaStmt, Event.release,
          Event.acquire, Event.exec .insertStmt, Event.release])) := by
  cases data with
  | nil => exact Or.inl ⟨.indexError, rfl⟩
  | cons r0 rs =>
    rcases prepare_run s t r0 with ⟨e, he⟩ | ⟨r, hr⟩
    · left
      refine ⟨e, ?_⟩
      unfold Database.insert_many
      dsimp only []
      rw [he]
    · cases r with
      | error e =>
        right; left
        refine ⟨.error e, ?_⟩
        unfold Database.insert_many
        dsimp only []
        rw [hr]
      | ok qs =>
        right; right
        unfold Database.insert_many
        dsimp only []
        rw [hr]
        dsimp only []
        rw [get_connection_closed]
        dsimp only []
        cases hrows : insertRows s t (r0 :: rs) with
        | error m =>
          dsimp only []
          rw [close_connection_open]
          exact ⟨.error (.storeError m), s, rfl⟩
        | ok s2 =>
          dsimp only []
          rw [close_connection_open]
          exact ⟨.ok (), s2, rfl⟩

/-- Every run of `create_table` from a closed connection: early
validation failure with no events, or one acquire/execute/release. -/
theorem create_table_run (s : Store) (t : String) (cols : List (String × String)) :
    (∃ e, Database.create_table ⟨s, false⟩ t cols = (.error e, ⟨s, false⟩, [])) ∨
    (∃ r s2, Database.create_table ⟨s, false⟩ t cols =
      (r, ⟨s2, false⟩, [Event.acquire, Event.exec .createStmt, Event.release])) := by
  rcases clean_cases t with hok | herr
  · cases hf : Database._format_column_declaration cols with
    | error e =>
      left
      refine ⟨e, ?_⟩
      unfold Database.create_table
      rw [hok]
      dsimp only []
      rw [hf]
    | ok q =>
      right
      unfold Database.create_table
      rw [hok]
      dsimp only []
      rw [hf]
      dsimp only []
      rw [get_connection_closed]
      dsimp only []
      cases hcti : createTableIfNotExists s t (List.map (fun p => (p.1, strUpper p.2)) cols) with
      | error m =>
        dsimp only []
        rw [close_connection_open]
        exact ⟨.error (.storeError m), s, rfl⟩
      | ok s2 =>
        dsimp only []
        rw [close_connection_open]
        exact ⟨.ok (), s2, rfl⟩
  · left
    refine ⟨.validation ("Unallowed characters in value " ++ t ++ "."), ?_⟩
    unfold Database.create_table
    rw [herr]

/-- Every run of `execute_query` from a closed connection: exactly one
acquire/execute/release, whatever the engine does with the raw text. -/
theorem execute_query_run (s : Store) (q : String)
    (engine : String → Store → Except String (List Row × Store)) :
    ∃ r s2, Database.execute_query ⟨s, false⟩ q engine =
      (r, ⟨s2, false⟩, [Event.acquire, Event.exec .rawStmt, Event.release]) := by
  unfold Database.execute_query
  rw [get_connection_closed]
  dsimp only []
  cases heng : engine q s with
  | error m =>
    dsimp only []
    rw [close_connection_open]
    exact ⟨.error (.storeError m), s, rfl⟩
  | ok p =>
    cases p with
    | mk rows s2 =>
      dsimp only []
      rw [close_connection_open]
      exact ⟨.ok (if rows.isEmpty then none else some rows), s2, rfl⟩

/-- `true` iff the trace never acquires while a connection is held and
never releases while none is (`held` = currently holding one). -/
def wellScoped : List Event → Bool → Bool
  | [], _ => true
  | Event.acquire :: rest, held => !held && wellScoped rest true
  | Event.release :: rest, held => held && wellScoped rest false
  | Event.exec _ :: rest, held => wellScoped rest held

/-! ### C3 -/

/-- C3: for every table name, `create_table` with a column whose type
token `FOOBAR` is outside the allowed vocabulary fails with a
`ValidationError` before any connection event, leaving the state
unchanged; for every name passing sanitization the error is the one whose
message lists the allowed vocabulary (every allowed token occurs in it as
a substring).  The error is raised on the first violating column: with
several columns, the first unknown type is the one reported. -/
theorem create_table_unknown_type_rejected (st : DBState) (t : String) :
    (∃ msg, Database.create_table st t [("c", "FOOBAR")] =
      (.error (.validation msg), st, [])) ∧
    (Database._clean_query_injection t = .ok t →
      Database.create_table st t [("c", "FOOBAR")] =
        (.error (.validation (vocabErrMsg "FOOBAR")), st, [])) ∧
    (∀ tok ∈ DB_DATA_TYPES_ALLOWED,
      containsSub tok.data (vocabErrMsg "FOOBAR").data = true) ∧
    Database._format_column_declaration [("a", "INTEGER"), ("b", "FOOBAR"), ("d", "BARF")] =
      .error (.validation (vocabErrMsg "FOOBAR")) := by
  have hvocab : ∀ hok : Database._clean_query_injection t = .ok t,
      Database.create_table st t [("c", "FOOBAR")] =
        (.error (.validation (vocabErrMsg "FOOBAR")), st, []) := by
    intro hok
    unfold Database.create_table
    rw [hok]
    dsimp only []
    rw [(by decide : Database._format_column_declaration [("c", "FOOBAR")] =
      Except.error (DBError.validation (vocabErrMsg "FOOBAR")))]
  refine ⟨?_, hvocab, by decide, by decide⟩
  rcases clean_cases t with hok | herr
  · exact ⟨vocabErrMsg "FOOBAR", hvocab hok⟩
  · refine ⟨"Unallowed characters in value " ++ t ++ ".", ?_⟩
    unfold Database.create_table
    rw [herr]

/-! ### C4 -/

/-- C4: `create_table` is idempotent — for any sanitization-passing name
and valid (nonempty, vocabulary-passing) column declaration, both the
first and the second invocation succeed, and `get_columns` reflects the
same schema after the first as after the second. -/
theorem create_table_idempotent (st : DBState) (t : String)
    (cols : List (String × String)) (q : String) (hcon : st.con = false)
    (hn : Database._clean_query_injection t = .ok t)
    (hc : Database._format_column_declaration cols = .ok q) (hcols : cols ≠ []) :
    (Database.create_table st t cols).1 = .ok () ∧
    (Database.create_table (Database.create_table st t cols).2.1 t cols).1 = .ok () ∧
    (Database.get_columns (Database.create_table st t cols).2.1 t).1 =
      (Database.get_columns
        (Database.create_table (Database.create_table st t cols).2.1 t cols).2.1 t).1 := by
  rw [DBState.eta_closed hcon]
  cases hlk : List.lookup t st.store with
  | some tbl =>
    have hex : (List.lookup t st.store).isSome = true := by
      rw [hlk]
      rfl
    rw [ct_exists hn hc hcols hex]
    dsimp only []
    rw [ct_exists hn hc hcols hex]
    exact ⟨rfl, rfl, rfl⟩
  | none =>
    rw [ct_new hn hc hcols hlk]
    dsimp only []
    have hex2 : (List.lookup t (st.store ++ [(t, ⟨upperCols cols, []⟩)])).isSome = true := by
      rw [lookup_append_self hlk]
      rfl
    rw [ct_exists hn hc hcols hex2]
    exact ⟨rfl, rfl, rfl⟩

/-- Witness for C4: creating `events(id INTEGER)` twice on an empty store. -/
theorem create_table_idempotent_witness :
    (Database.create_table ⟨[], false⟩ "events" [("id", "INTEGER")]).1 = .ok () ∧
    (Database.create_table
      (Database.create_table ⟨[], false⟩ "events" [("id", "INTEGER")]).2.1 "events"
      [("id", "INTEGER")]).1 = .ok () ∧
    (Database.get_columns
      (Database.create_table ⟨[], false⟩ "events" [("id", "INTEGER")]).2.1 "events").1 =
      (Database.get_columns
        (Database.create_table
          (Database.create_table ⟨[], false⟩ "events" [("id", "INTEGER")]).2.1 "events"
          [("id", "INTEGER")]).2.1 "events").1 :=
  create_table_idempotent ⟨[], false⟩ "events" [("id", "INTEGER")] "id INTEGER" rfl
    (by decide) (by decide) (by decide)

/-! ### C5 -/

/-- C5: `insert` with a row whose width differs from the reflected column
count fails with the arity `ValueError`, leaves the store unchanged, and
never executes the insert statement. -/
theorem insert_wrong_arity_no_write (st : DBState) (t : String) (tbl : Table)
    (data : Row) (hcon : st.con = false)
    (hn : Database._clean_query_injection t = .ok t)
    (htab : List.lookup t st.store = some tbl) (hne : tbl.schema ≠ [])
    (hk : data.length ≠ tbl.schema.length) :
    (Database.insert st t data).1 =
      .error (.arityMismatch (arityMsg data.length tbl.schema.length)) ∧
    (Database.insert st t data).2.1.store = st.store ∧
    Event.exec StmtKind.insertStmt ∉ (Database.insert st t data).2.2 := by
  rw [DBState.eta_closed hcon]
  rw [ins_mismatch hn htab hne hk]
  refine ⟨rfl, rfl, ?_⟩
  dsimp only []
  decide

/-- The store used in the concrete lifecycle witnesses: one table `tbl`
with a single `INTEGER` column and no rows. -/
def exStore : Store := [("tbl", { schema := [("id", "INTEGER")], rows := [] })]

/-- Witness for C5: a 0-element row against the 1-column table `tbl`. -/
theorem insert_wrong_arity_no_write_witness :
    (Database.insert ⟨exStore, false⟩ "tbl" []).1 =
      .error (.arityMismatch (arityMsg 0 1)) ∧
    (Database.insert ⟨exStore, false⟩ "tbl" []).2.1.store = exStore ∧
    Event.exec StmtKind.insertStmt ∉ (Database.insert ⟨exStore, false⟩ "tbl" []).2.2 :=
  insert_wrong_arity_no_write ⟨exStore, false⟩ "tbl"
    { schema := [("id", "INTEGER")], rows := [] } [] rfl (by decide) (by decide)
    (by decide) (by decide)

/-! ### C6 -/

/-- C6: `insert_many` checks arity only against the first row — it raises
the arity `ValueError` iff the first row's width differs from the
reflected column count, and with a correct first row it always reaches
the execution of the insert statement, whatever the widths of the later
rows. -/
theorem insert_many_first_row_arity_only (st : DBState) (t : String) (tbl : Table)
    (r : Row) (rs : List Row) (hcon : st.con = false)
    (hn : Database._clean_query_injection t = .ok t)
    (htab : List.lookup t st.store = some tbl) (hne : tbl.schema ≠ []) :
    ((Database.insert_many st t (r :: rs)).1 =
        .error (.arityMismatch (arityMsg r.length tbl.schema.length)) ↔
      r.length ≠ tbl.schema.length) ∧
    (r.length = tbl.schema.length →
      Event.exec StmtKind.insertStmt ∈ (Database.insert_many st t (r :: rs)).2.2) := by
  rw [DBState.eta_closed hcon]
  by_cases hk : r.length = tbl.schema.length
  · obtain ⟨res, s2, heq, hres⟩ := im_firstok hn htab hne hk
    rw [heq]
    constructor
    · constructor
      · intro habs
        rcases hres with hok | ⟨m, hm⟩
        · rw [hok] at habs
          exact absurd habs (by simp)
        · rw [hm] at habs
          exact absurd habs (by simp)
      · intro hne2
        exact absurd hk hne2
    · intro _
      dsimp only []
      decide
  · rw [im_mismatch hn htab hne hk]
    constructor
    · constructor
      · intro _
        exact hk
      · intro _
        rfl
    · intro heq2
      exact absurd heq2 hk

/-- Witness for C6: the 1-column table `tbl` with an empty first row. -/
theorem insert_many_first_row_arity_only_witness :
    ((Database.insert_many ⟨exStore, false⟩ "tbl" [[]]).1 =
        .error (.arityMismatch (arityMsg 0 1)) ↔ (0 ≠ 1)) ∧
    ((0 : Nat) = 1 →
      Event.exec StmtKind.insertStmt ∈ (Database.insert_many ⟨exStore, false⟩ "tbl" [[]]).2.2) :=
  insert_many_first_row_arity_only ⟨exStore, false⟩ "tbl"
    { schema := [("id", "INTEGER")], rows := [] } [] [] rfl (by decide) (by decide)
    (by decide)

/-! ### C7 -/

/-- C7: `get_columns` on a sanitization-passing name that was never
created fails with the `SchemaNotFoundError` (the introspection result is
empty), and afterwards the connection handle is closed. -/
theorem get_columns_missing_table (st : DBState) (t : String) (hcon : st.con = false)
    (hn : Database._clean_query_injection t = .ok t)
    (hab : List.lookup t st.store = none) :
    (Database.get_columns st t).1 = .error (.schemaNotFound (schemaNotFoundMsg t)) ∧
    (Database.get_columns st t).2.1.con = false := by
  rw [DBState.eta_closed hcon]
  rw [gc_missing hn hab]
  exact ⟨rfl, rfl⟩

/-- Witness for C7: the table name `"events"` against the empty store. -/
theorem get_columns_missing_table_witness :
    (Database.get_columns ⟨[], false⟩ "events").1 =
      .error (.schemaNotFound (schemaNotFoundMsg "events")) ∧
    (Database.get_columns ⟨[], false⟩ "events").2.1.con = false :=
  get_columns_missing_table ⟨[], false⟩ "events" rfl (by decide) (by decide)

/-! ### C8 -/

/-- C8: every public operation started with a closed connection handle
leaves it closed again, on the returning and on every raising path — the
release in `finally` (or the absence of any acquisition on early
validation failures) makes the handle non-null only during the body of
one operation. -/
theorem connection_released_on_all_paths (st : DBState) (t : String)
    (cols : List (String × String)) (data : Row) (rows : List Row) (q : String)
    (engine : String → Store → Except String (List Row × Store))
    (hcon : st.con = false) :
    (Database.create_table st t cols).2.1.con = false ∧
    (Database.get_columns st t).2.1.con = false ∧
    (Database.insert st t data).2.1.con = false ∧
    (Database.insert_many st t rows).2.1.con = false ∧
    (Database.execute_query st q engine).2.1.con = false := by
  rw [DBState.eta_closed hcon]
  refine ⟨?_, ?_, ?_, ?_, ?_⟩
  · rcases create_table_run st.store t cols with ⟨e, he⟩ | ⟨r, s2, hr⟩
    · rw [he]
    · rw [hr]
  · rcases clean_cases t with hok | herr
    · rw [gc_run st.store t hok]
    · rw [gc_badname st.store herr]
  · rcases insert_run st.store t data with ⟨e, he⟩ | ⟨r, hr⟩ | ⟨r, s2, hr⟩
    · rw [he]
    · rw [hr]
    · rw [hr]
  · rcases insert_many_run st.store t rows with ⟨e, he⟩ | ⟨r, hr⟩ | ⟨r, s2, hr⟩
    · rw [he]
    · rw [hr]
    · rw [hr]
  · obtain ⟨r, s2, hr⟩ := execute_query_run st.store q engine
    rw [hr]

/-- Witness for C8 at concrete arguments (engine succeeding with no rows). -/
theorem connection_released_on_all_paths_witness :
    (Database.create_table ⟨[], false⟩ "events" [("id", "INTEGER")]).2.1.con = false ∧
    (Database.get_columns ⟨[], false⟩ "events").2.1.con = false ∧
    (Database.insert ⟨[], false⟩ "events" []).2.1.con = false ∧
    (Database.insert_many ⟨[], false⟩ "events" []).2.1.con = false ∧
    (Database.execute_query ⟨[], false⟩ "PRAGMA user_version"
      (fun _ s => .ok ([], s))).2.1.con = false :=
  connection_released_on_all_paths ⟨[], false⟩ "events" [("id", "INTEGER")] [] []
    "PRAGMA user_version" (fun _ s => .ok ([], s)) rfl

/-! ### C9 -/

/-- Counterexample to C9: a single `insert` call on an existing table
performs two acquire/release cycles (one inside the column reflection of
`prepare_insertion`, one for the insert itself), so "acquires a
connection at most once per public operation" is false. -/
theorem insert_acquires_twice :
    (Database.insert ⟨exStore, false⟩ "tbl" [SQLValue.int 1]).2.2.count Event.acquire = 2 ∧
    ¬((Database.insert ⟨exStore, false⟩ "tbl" [SQLValue.int 1]).2.2.count Event.acquire ≤ 1) := by
  constructor
  · decide
  · decide

/-- C9 (amended): `create_table`, `get_columns` and `execute_query`
acquire a connection at most once per call; `insert` and `insert_many`
acquire at most twice (once reflecting columns, once executing); and no
operation ever acquires while already holding a connection — every
acquisition is released before the next one. -/
theorem connection_acquisitions_per_call (st : DBState) (t : String)
    (cols : List (String × String)) (data : Row) (rows : List Row) (q : String)
    (engine : String → Store → Except String (List Row × Store))
    (hcon : st.con = false) :
    ((Database.create_table st t cols).2.2.count Event.acquire ≤ 1 ∧
      wellScoped (Database.create_table st t cols).2.2 false = true) ∧
    ((Database.get_columns st t).2.2.count Event.acquire ≤ 1 ∧
      wellScoped (Database.get_columns st t).2.2 false = true) ∧
    ((Database.execute_query st q engine).2.2.count Event.acquire ≤ 1 ∧
      wellScoped (Database.execute_query st q engine).2.2 false = true) ∧
    ((Database.insert st t data).2.2.count Event.acquire ≤ 2 ∧
      wellScoped (Database.insert st t data).2.2 false = true) ∧
    ((Database.insert_many st t rows).2.2.count Event.acquire ≤ 2 ∧
      wellScoped (Database.insert_many st t rows).2.2 false = true) := by
  rw [DBState.eta_closed hcon]
  refine ⟨?_, ?_, ?_, ?_, ?_⟩
  · rcases create_table_run st.store t cols with ⟨e, he⟩ | ⟨r, s2, hr⟩
    · rw [he]
      dsimp only []
      exact ⟨by decide, by decide⟩
    · rw [hr]
      dsimp only []
      exact ⟨by decide, by decide⟩
  · rcases clean_cases t with hok | herr
    · rw [gc_run st.store t hok]
      dsimp only []
      exact ⟨by decide, by decide⟩
    · rw [gc_badname st.store herr]
      dsimp only []
      exact ⟨by decide, by decide⟩
  · obtain ⟨r, s2, hr⟩ := execute_query_run st.store q engine
    rw [hr]
    dsimp only []
    exact ⟨by decide, by decide⟩
  · rcases insert_run st.store t data with ⟨e, he⟩ | ⟨r, hr⟩ | ⟨r, s2, hr⟩
    · rw [he]
      dsimp only []
      exact ⟨by decide, by decide⟩
    · rw [hr]
      dsimp only []
      exact ⟨by decide, by decide⟩
    · rw [hr]
      dsimp only []
      exact ⟨by decide, by decide⟩
  · rcases insert_many_run st.store t rows with ⟨e, he⟩ | ⟨r, hr⟩ | ⟨r, s2, hr⟩
    · rw [he]
      dsimp only []
      exact ⟨by decide, by decide⟩
    · rw [hr]
      dsimp only []
      exact ⟨by decide, by decide⟩
    · rw [hr]
      dsimp only []
      exact ⟨by decide, by decide⟩

/-- Witness for the amended C9 at concrete arguments. -/
theorem connection_acquisitions_per_call_witness :
    ((Database.create_table ⟨exStore, false⟩ "tbl" [("id", "INTEGER")]).2.2.count
        Event.acquire ≤ 1 ∧
      wellScoped (Database.create_table ⟨exStore, false⟩ "tbl" [("id", "INTEGER")]).2.2
        false = true) ∧
    ((Database.get_columns ⟨exStore, false⟩ "tbl").2.2.count Event.acquire ≤ 1 ∧
      wellScoped (Database.get_columns ⟨exStore, false⟩ "tbl").2.2 false = true) ∧
    ((Database.execute_query ⟨exStore, false⟩ "PRAGMA user_version"
        (fun _ s => .ok ([], s))).2.2.count Event.acquire ≤ 1 ∧
      wellScoped (Database.execute_query ⟨exStore, false⟩ "PRAGMA user_version"
        (fun _ s => .ok ([], s))).2.2 false = true) ∧
    ((Database.insert ⟨exStore, false⟩ "tbl" [SQLValue.int 1]).2.2.count Event.acquire ≤ 2 ∧
      wellScoped (Database.insert ⟨exStore, false⟩ "tbl" [SQLValue.int 1]).2.2 false = true) ∧
    ((Database.insert_many ⟨exStore, false⟩ "tbl" [[SQLValue.int 1]]).2.2.count
        Event.acquire ≤ 2 ∧
      wellScoped (Database.insert_many ⟨exStore, false⟩ "tbl" [[SQLValue.int 1]]).2.2
        false = true) :=
  connection_acquisitions_per_call ⟨exStore, false⟩ "tbl" [("id", "INTEGER")]
    [SQLValue.int 1] [[SQLValue.int 1]] "PRAGMA user_version" (fun _ s => .ok ([], s)) rfl

/-! ### C10 -/

/-- C10: `insert_many` with an empty batch raises `IndexError` from
`data[0]` before any connection is acquired and before any statement is
executed — the state is unchanged and the event trace is empty. -/
theorem insert_many_empty_batch (st : DBState) (t : String) :
    Database.insert_many st t [] = (.error .indexError, st, []) := rfl

end PyForceSim
